import Mathlib

/-!
Verification of the GraphBus starter project's bus core
(`backend/graphbus_core_mock.py`), the wiring engine (`backend/run.py`)
and the task agent's not-found paths (`backend/agents/task_agent.py`),
as a shallow embedding in Lean.

The Python dict `MessageBus._subscribers : dict[str, list[tuple[str, Callable]]]`
is embedded as an insertion-ordered association list; handlers are an
abstract type `H` whose run-time behaviour is supplied by a semantics
`exec : H → P → Option E` (`none` = the handler returns normally,
`some e` = the handler raises exception `e`).
-/

namespace GraphBus

/-- The subscriber registry: insertion-ordered map from topic to the list
of `(subscriber_name, handler)` pairs, mirroring the Python dict. -/
structure MessageBus (H : Type) where
  subscribers : List (String × List (String × H))
deriving Repr

/-- Lookup of a topic's entry in the registry (Python `dict.__getitem__`
behaviour, partiality made explicit with `Option`). -/
def lookupTopic {H : Type} : List (String × List (String × H)) → String → Option (List (String × H))
  | [], _ => none
  | (t, subs) :: rest, topic => if t = topic then some subs else lookupTopic rest topic

/-- `self._subscribers.get(topic, [])`: the subscription list for a topic,
empty when the topic is absent.  Does not modify the registry. -/
def MessageBus.getSubs {H : Type} (bus : MessageBus H) (topic : String) : List (String × H) :=
  (lookupTopic bus.subscribers topic).getD []

/-- Whether the registry contains an entry for `topic`
(Python `topic in self._subscribers`). -/
def MessageBus.hasTopic {H : Type} (bus : MessageBus H) (topic : String) : Bool :=
  (lookupTopic bus.subscribers topic).isSome

/-- `self._subscribers.setdefault(topic, []).append((name, handler))` on the
underlying association list: append the pair to the topic's list if the
topic is present, otherwise add a new entry at the end of the key order
(Python dicts insert new keys at the end). -/
def insertSub {H : Type} (l : List (String × List (String × H))) (topic : String)
    (entry : String × H) : List (String × List (String × H)) :=
  match l with
  | [] => [(topic, [entry])]
  | (t, subs) :: rest =>
      if t = topic then (t, subs ++ [entry]) :: rest
      else (t, subs) :: insertSub rest topic entry

/-- `MessageBus.subscribe(topic, handler, subscriber_name=...)`: register
`handler` to be called when `topic` is published. -/
def MessageBus.subscribe {H : Type} (bus : MessageBus H) (topic : String) (handler : H)
    (subscriber_name : String) : MessageBus H :=
  ⟨insertSub bus.subscribers topic (subscriber_name, handler)⟩

/-- The dispatch loop of `MessageBus.publish`: invoke each handler in list
order with the payload, under the handler semantics `exec`.  Returns the
trace of invocations `(handler, payload)` and the first raised exception,
if any; when a handler raises, the loop stops (fail-fast, the raise
propagates out of the `for` loop). -/
def runHandlers {H P E : Type} (exec : H → P → Option E) (payload : P) :
    List (String × H) → List (H × P) × Option E
  | [] => ([], none)
  | (_, h) :: rest =>
      match exec h payload with
      | some e => ([(h, payload)], some e)
      | none =>
          let r := runHandlers exec payload rest
          ((h, payload) :: r.1, r.2)

/-- `MessageBus.publish(topic, payload)`: deliver `payload` to every handler
subscribed to `topic`, in registration order.  The method only reads
`self._subscribers` (via `.get(topic, [])`), so the bus state is returned
unchanged; the invocation trace and the propagated exception (if a
handler raised) are returned alongside. -/
def MessageBus.publish {H P E : Type} (exec : H → P → Option E) (bus : MessageBus H)
    (topic : String) (payload : P) : MessageBus H × List (H × P) × Option E :=
  (bus, runHandlers exec payload (bus.getSubs topic))

/-- A Python callable with its sidecar attributes, as set by the
decorators in `graphbus_core_mock.py`.  `fn` is the runtime behaviour;
the remaining fields embed the `_graphbus_*` attributes the decorators
attach to the function object. -/
structure PyCallable (α β : Type) where
  fn : α → β
  subscribeTopic : Option String := none
  inputSchema : Option (List (String × String)) := none
  outputSchema : Option (List (String × String)) := none

/-- The `@subscribe(topic)` decorator: sets
`fn._graphbus_subscribe_topic = topic` and returns `fn`.  Only the
sidecar attribute changes; the runtime behaviour `fn` is untouched. -/
def subscribe (topic : String) {α β : Type} (f : PyCallable α β) : PyCallable α β :=
  { f with subscribeTopic := some topic }

/-- The `@schema_method(input_schema, output_schema)` decorator: sets
`fn._graphbus_input_schema` and `fn._graphbus_output_schema` and returns
`fn`.  Schemas are embedded as name-to-type-name mappings. -/
def schema_method (input_schema output_schema : List (String × String)) {α β : Type}
    (f : PyCallable α β) : PyCallable α β :=
  { f with inputSchema := some input_schema, outputSchema := some output_schema }

/-- `GraphBusNode`: base class for agents.  Holds an optional bus
reference and an opaque memory handle. -/
structure GraphBusNode (H M : Type) where
  bus : Option (MessageBus H)
  memory : Option M := none

/-- `GraphBusNode.publish(topic, payload)`: `if self._bus:` delegate to
`self._bus.publish(topic, payload)`, else do nothing.  (A `MessageBus`
instance is always truthy in Python, so the truthiness test is exactly
the presence test.)  Returns the invocation trace and propagated
exception of the delegated call, or `([], none)` when there is no bus. -/
def GraphBusNode.publish {H M P E : Type} (exec : H → P → Option E)
    (node : GraphBusNode H M) (topic : String) (payload : P) : List (H × P) × Option E :=
  match node.bus with
  | some b => (b.publish exec topic payload).2
  | none => ([], none)

/-- One bound operation of an agent, as seen by
`inspect.getmembers(agent, predicate=inspect.ismethod)` in `run.py`:
its attribute name, the `_graphbus_subscribe_topic` marker if the
`@subscribe` decorator set one (`getattr(method, ..., None)`), and the
bound method itself as a handler. -/
structure AgentOp (H : Type) where
  opName : String
  subscribeTopic : Option String
  handler : H

/-- An agent instance as the wiring engine sees it: its class name
(`agent.__class__.__name__`) and its enumerated bound operations. -/
structure Agent (H : Type) where
  typeName : String
  ops : List (AgentOp H)

/-- The inner loop of `_wire_subscriptions` for one agent: for each bound
operation whose `_graphbus_subscribe_topic` is not `None`, call
`bus.subscribe(topic, method, subscriber_name=f"{cls}.{name}")`. -/
def wireAgent {H : Type} (bus : MessageBus H) (a : Agent H) : MessageBus H :=
  a.ops.foldl
    (fun b op =>
      match op.subscribeTopic with
      | some topic => b.subscribe topic op.handler (a.typeName ++ "." ++ op.opName)
      | none => b)
    bus

/-- `_wire_subscriptions()`: iterate over the agent list and wire each
agent's marked operations to the bus. -/
def wireSubscriptions {H : Type} (agents : List (Agent H)) (bus : MessageBus H) : MessageBus H :=
  agents.foldl wireAgent bus

/-- The subscriptions one wiring pass adds for a given topic, in wiring
order: for every agent in order, every marked operation declaring that
topic, under the qualified subscriber name. -/
def wiredSubsFor {H : Type} (agents : List (Agent H)) (topic : String) : List (String × H) :=
  (agents.map
    (fun a =>
      a.ops.filterMap
        (fun op =>
          if op.subscribeTopic = some topic then
            some (a.typeName ++ "." ++ op.opName, op.handler)
          else none))).flatten

end GraphBus

namespace TaskAgent

open GraphBus

/-- A row of the `tasks` table, as the fields `TaskManagerAgent` reads
and writes (`id`, `title`, `done`, `user_id`). -/
structure Task where
  id : String
  title : String
  done : Bool
  user_id : String
deriving Repr, DecidableEq

/-- A value in an event payload dict: a string or a boolean. -/
inductive PVal where
  | s : String → PVal
  | b : Bool → PVal
deriving Repr, DecidableEq

/-- An event published by the agent via `self.publish(topic, payload)`:
the topic and the payload dict. -/
abbrev Event := String × List (String × PVal)

/-- `db.query(Task).filter(Task.id == task_id, Task.user_id == user_id).first()`:
the first task in the database matching both filters, if any. -/
def dbFirst (db : List Task) (task_id user_id : String) : Option Task :=
  db.find? (fun t => t.id = task_id ∧ t.user_id = user_id)

/-- Replace the first task matching `(task_id, user_id)` by `f` of it:
the ORM mutation of the fetched row followed by `db.commit()`. -/
def updateFirst (db : List Task) (task_id user_id : String) (f : Task → Task) : List Task :=
  match db with
  | [] => []
  | t :: rest =>
      if t.id = task_id ∧ t.user_id = user_id then f t :: rest
      else t :: updateFirst rest task_id user_id f

/-- Remove the first task matching `(task_id, user_id)`:
`db.delete(task)` followed by `db.commit()`. -/
def eraseFirst (db : List Task) (task_id user_id : String) : List Task :=
  match db with
  | [] => []
  | t :: rest =>
      if t.id = task_id ∧ t.user_id = user_id then rest
      else t :: eraseFirst rest task_id user_id

/-- `TaskManagerAgent.update_task(db, task_id, user_id, title, done)`:
fetch the task; if absent return `None`; otherwise apply the optional
`title`/`done` updates, commit, publish `/Tasks/Updated`, and return the
result dict `(task_id, title, done)`.  The returned triple is the new
database, the list of events handed to `self.publish`, and the return
value. -/
def update_task (db : List Task) (task_id user_id : String)
    (title : Option String) (done : Option Bool) :
    List Task × List Event × Option (String × String × Bool) :=
  match dbFirst db task_id user_id with
  | none => (db, [], none)
  | some task =>
      let task1 := match title with
        | some s => { task with title := s }
        | none => task
      let task2 := match done with
        | some d => { task1 with done := d }
        | none => task1
      (updateFirst db task_id user_id (fun _ => task2),
       [("/Tasks/Updated",
         [("task_id", PVal.s task_id), ("title", PVal.s task2.title),
          ("done", PVal.b task2.done)])],
       some (task2.id, task2.title, task2.done))

/-- `TaskManagerAgent.delete_task(db, task_id, user_id)`: fetch the task;
if absent return `False`; otherwise delete it, commit, publish
`/Tasks/Deleted`, and return `True`. -/
def delete_task (db : List Task) (task_id user_id : String) :
    List Task × List Event × Bool :=
  match dbFirst db task_id user_id with
  | none => (db, [], false)
  | some _ =>
      (eraseFirst db task_id user_id,
       [("/Tasks/Deleted", [("task_id", PVal.s task_id), ("user_id", PVal.s user_id)])],
       true)

end TaskAgent

namespace GraphBus

/-! ### Registry lemmas -/

theorem lookupTopic_insertSub_same {H : Type} (l : List (String × List (String × H)))
    (T : String) (e : String × H) :
    lookupTopic (insertSub l T e) T = some ((lookupTopic l T).getD [] ++ [e]) := by
  induction l with
  | nil => simp [insertSub, lookupTopic]
  | cons hd tl ih =>
      obtain ⟨t, subs⟩ := hd
      by_cases ht : t = T
      · subst ht
        simp [insertSub, lookupTopic]
      · simp [insertSub, lookupTopic, ht, ih]

theorem lookupTopic_insertSub_other {H : Type} (l : List (String × List (String × H)))
    (T T' : String) (e : String × H) (hne : T' ≠ T) :
    lookupTopic (insertSub l T e) T' = lookupTopic l T' := by
  have hne2 : ¬T = T' := fun hh => hne hh.symm
  induction l with
  | nil => simp [insertSub, lookupTopic, hne2]
  | cons hd tl ih =>
      obtain ⟨t, subs⟩ := hd
      by_cases ht : t = T
      · subst ht
        simp [insertSub, lookupTopic, hne2]
      · simp [insertSub, lookupTopic, ht, ih]

theorem getSubs_subscribe_same {H : Type} (bus : MessageBus H) (T n : String) (h : H) :
    (bus.subscribe T h n).getSubs T = bus.getSubs T ++ [(n, h)] := by
  simp [MessageBus.getSubs, MessageBus.subscribe, lookupTopic_insertSub_same]

theorem getSubs_subscribe_other {H : Type} (bus : MessageBus H) (T T' n : String) (h : H)
    (hne : T' ≠ T) :
    (bus.subscribe T h n).getSubs T' = bus.getSubs T' := by
  simp [MessageBus.getSubs, MessageBus.subscribe, lookupTopic_insertSub_other _ _ _ _ hne]

theorem hasTopic_subscribe_same {H : Type} (bus : MessageBus H) (T n : String) (h : H) :
    (bus.subscribe T h n).hasTopic T = true := by
  simp [MessageBus.hasTopic, MessageBus.subscribe, lookupTopic_insertSub_same]

/-! ### Dispatch lemmas -/

theorem runHandlers_all_ok {H P E : Type} (exec : H → P → Option E) (p : P)
    (subs : List (String × H)) (hok : ∀ s ∈ subs, exec s.2 p = none) :
    runHandlers exec p subs = (subs.map (fun s => (s.2, p)), none) := by
  induction subs with
  | nil => rfl
  | cons s rest ih =>
      obtain ⟨n, h⟩ := s
      have h1 : exec h p = none := hok (n, h) (List.mem_cons_self _ _)
      have h2 : ∀ s ∈ rest, exec s.2 p = none := fun s hs => hok s (List.mem_cons_of_mem _ hs)
      simp [runHandlers, h1, ih h2]

theorem runHandlers_fail {H P E : Type} (exec : H → P → Option E) (p : P) :
    ∀ (subs : List (String × H)) (i : Nat) (hi : i < subs.length) (e : E),
      (∀ j (hj : j < i), exec (subs.get ⟨j, lt_trans hj hi⟩).2 p = none) →
      exec (subs.get ⟨i, hi⟩).2 p = some e →
      runHandlers exec p subs = ((subs.take (i + 1)).map (fun s => (s.2, p)), some e) := by
  intro subs
  induction subs with
  | nil => intro i hi; exact absurd hi (by simp)
  | cons s rest ih =>
      intro i hi e hok hfail
      obtain ⟨n, h⟩ := s
      cases i with
      | zero =>
          simp only [List.get] at hfail
          simp [runHandlers, hfail]
      | succ j =>
          have h0 : exec h p = none := hok 0 (Nat.succ_pos j)
          have hj : j < rest.length := Nat.lt_of_succ_lt_succ hi
          have hok2 : ∀ k (hk : k < j), exec (rest.get ⟨k, lt_trans hk hj⟩).2 p = none :=
            fun k hk => hok (k + 1) (Nat.succ_lt_succ hk)
          have hfail2 : exec (rest.get ⟨j, hj⟩).2 p = some e := hfail
          simp [runHandlers, h0, ih j hj e hok2 hfail2]

/-! ### Wiring lemmas -/

theorem getSubs_wireOps {H : Type} (tn : String) (ops : List (AgentOp H))
    (bus : MessageBus H) (T : String) :
    (ops.foldl
        (fun b op =>
          match op.subscribeTopic with
          | some topic => b.subscribe topic op.handler (tn ++ "." ++ op.opName)
          | none => b)
        bus).getSubs T
      = bus.getSubs T
        ++ ops.filterMap
            (fun op =>
              if op.subscribeTopic = some T then some (tn ++ "." ++ op.opName, op.handler)
              else none) := by
  induction ops generalizing bus with
  | nil => simp
  | cons op rest ih =>
      cases hop : op.subscribeTopic with
      | none => simp [List.foldl_cons, hop, ih, List.filterMap_cons]
      | some t =>
          by_cases ht : t = T
          · subst ht
            simp [List.foldl_cons, hop, ih, getSubs_subscribe_same, List.filterMap_cons]
          · simp [List.foldl_cons, hop, ih, List.filterMap_cons, ht,
              getSubs_subscribe_other _ _ _ _ _ (Ne.symm ht)]

theorem getSubs_wireAgent {H : Type} (a : Agent H) (bus : MessageBus H) (T : String) :
    (wireAgent bus a).getSubs T
      = bus.getSubs T
        ++ a.ops.filterMap
            (fun op =>
              if op.subscribeTopic = some T then
                some (a.typeName ++ "." ++ op.opName, op.handler)
              else none) :=
  getSubs_wireOps a.typeName a.ops bus T

theorem getSubs_wireSubscriptions {H : Type} (agents : List (Agent H)) (bus : MessageBus H)
    (T : String) :
    (wireSubscriptions agents bus).getSubs T = bus.getSubs T ++ wiredSubsFor agents T := by
  induction agents generalizing bus with
  | nil => simp [wireSubscriptions, wiredSubsFor]
  | cons a rest ih =>
      have hstep : wireSubscriptions (a :: rest) bus = wireSubscriptions rest (wireAgent bus a) :=
        rfl
      rw [hstep, ih, getSubs_wireAgent]
      simp [wiredSubsFor, List.append_assoc]

/-! ### Claim theorems -/

/-- Claim C1: for every topic `T` with subscribers registered in the
registry order and every payload `p`, when every subscribed handler
returns normally, `publish(T, p)` produces exactly the trace that invokes
the handlers in registration order, each receiving the identical payload
`p`, and returns only after all of them (the trace is complete), with no
error and the bus unchanged. -/
theorem publish_ordered_complete {H P E : Type} (exec : H → P → Option E)
    (bus : MessageBus H) (T : String) (p : P)
    (hok : ∀ s ∈ bus.getSubs T, exec s.2 p = none) :
    bus.publish exec T p = (bus, (bus.getSubs T).map (fun s => (s.2, p)), none) := by
  unfold MessageBus.publish
  rw [runHandlers_all_ok exec p (bus.getSubs T) hok]

/-- Witness for C1: a bus with two subscribers on topic `"T"`; publishing
`5` invokes handler `1` then handler `2`, each with payload `5`. -/
theorem publish_ordered_complete_witness :
    (MessageBus.mk [("T", [("a", 1), ("b", 2)])] : MessageBus Nat).publish
        (fun (_ : Nat) (_ : Nat) => (none : Option Nat)) "T" 5
      = (MessageBus.mk [("T", [("a", 1), ("b", 2)])], [(1, 5), (2, 5)], none) :=
  publish_ordered_complete (fun _ _ => none) _ "T" 5 (fun _ _ => rfl)

/-- Claim C2: fail-fast dispatch.  If the handlers before position `i`
return normally and the handler at position `i` raises `e`, then
`publish(T, p)` invokes exactly the first `i + 1` handlers (so the
handlers after position `i` are never invoked) and the raised error `e`
propagates to the publish call site. -/
theorem publish_fail_fast {H P E : Type} (exec : H → P → Option E) (bus : MessageBus H)
    (T : String) (p : P) (i : Nat) (e : E) (hi : i < (bus.getSubs T).length)
    (hok : ∀ j (hj : j < i), exec ((bus.getSubs T).get ⟨j, lt_trans hj hi⟩).2 p = none)
    (hfail : exec ((bus.getSubs T).get ⟨i, hi⟩).2 p = some e) :
    bus.publish exec T p
      = (bus, ((bus.getSubs T).take (i + 1)).map (fun s => (s.2, p)), some e) := by
  unfold MessageBus.publish
  rw [runHandlers_fail exec p (bus.getSubs T) i hi e hok hfail]

/-- Witness for C2: three subscribers on `"T"`; the second handler raises
`9`, so only the first two are invoked and `9` propagates. -/
theorem publish_fail_fast_witness :
    (MessageBus.mk [("T", [("a", 1), ("b", 2), ("c", 3)])] : MessageBus Nat).publish
        (fun (h : Nat) (_ : Nat) => if h = 2 then some 9 else (none : Option Nat)) "T" 5
      = (MessageBus.mk [("T", [("a", 1), ("b", 2), ("c", 3)])], [(1, 5), (2, 5)], some 9) :=
  publish_fail_fast _ _ "T" 5 1 9 (by decide)
    (fun j hj => by
      cases j with
      | zero => rfl
      | succ k => exact absurd hj (by omega))
    rfl

/-- Claim C3: publishing to a topic with zero registered subscribers
returns normally (no error), invokes no handler (empty trace), and
leaves the bus unchanged. -/
theorem publish_no_subscribers {H P E : Type} (exec : H → P → Option E) (bus : MessageBus H)
    (T : String) (p : P) (hz : bus.getSubs T = []) :
    bus.publish exec T p = (bus, [], none) := by
  unfold MessageBus.publish
  rw [hz]
  rfl

/-- Witness for C3: publishing to `"T"` on the empty bus returns normally
with no invocations. -/
theorem publish_no_subscribers_witness :
    (MessageBus.mk ([] : List (String × List (String × Nat)))).publish
        (fun (_ : Nat) (_ : Nat) => (none : Option Nat)) "T" 0
      = (MessageBus.mk [], [], none) :=
  publish_no_subscribers _ _ "T" 0 rfl

/-- Claim C6 counterexample: the claim also asserts that after
`publish(T, payload)` the registry contains an entry for `T`; but
`publish` reads the registry with `dict.get(topic, [])`, which does not
insert.  On the empty bus, after publishing to `"T"` the registry still
has no entry for `"T"`. -/
theorem publish_creates_topic_counterexample :
    (((MessageBus.mk ([] : List (String × List (String × Nat)))).publish
        (fun (_ : Nat) (_ : Nat) => (none : Option Nat)) "T" 0).1).hasTopic "T" = false :=
  rfl

/-- Claim C6 (amended): topics need no advance registration step.
After `subscribe(T, h, n)` the registry contains an entry for `T`
(created implicitly on first subscribe); `publish(T, p)` on a bus with
no entry for `T` likewise needs no advance registration — it returns
normally invoking no handler — but it does not create a registry entry
for `T`: `publish` never modifies the registry. -/
theorem topics_implicit_no_registration {H P E : Type} (exec : H → P → Option E)
    (bus : MessageBus H) (T n : String) (h : H) (p : P) :
    ((bus.subscribe T h n).hasTopic T = true)
    ∧ ((MessageBus.mk ([] : List (String × List (String × H)))).publish exec T p
        = (MessageBus.mk [], [], none))
    ∧ ((bus.publish exec T p).1 = bus) :=
  ⟨hasTopic_subscribe_same bus T n h, rfl, rfl⟩

/-- Claim C7: the decorators are behavior-preserving.  For every function
`f` and schemas `i`, `o`, the callable produced by `schema_method(i, o)(f)`
computes exactly what `f` computes on every input, and likewise
`subscribe(topic)(f)`: the decorators only attach sidecar attributes. -/
theorem decorators_preserve_behavior {α β : Type} (i o : List (String × String))
    (T : String) (f : PyCallable α β) (x : α) :
    (schema_method i o f).fn x = f.fn x ∧ (subscribe T f).fn x = f.fn x :=
  ⟨rfl, rfl⟩

/-- Claim C8: an agent constructed without a bus has a `publish` that is a
silent no-op (no handler invoked, no error, returns normally); an agent
constructed with a bus delegates `publish` exactly to `bus.publish`. -/
theorem node_publish_noop_or_delegates {H M P E : Type} (exec : H → P → Option E)
    (node : GraphBusNode H M) (T : String) (p : P) :
    (node.bus = none → node.publish exec T p = ([], none))
    ∧ (∀ b : MessageBus H, node.bus = some b →
        node.publish exec T p = (b.publish exec T p).2) := by
  constructor
  · intro hb
    simp [GraphBusNode.publish, hb]
  · intro b hb
    simp [GraphBusNode.publish, hb]

/-- Witness for C8: a node with no bus publishes as a no-op. -/
theorem node_publish_noop_or_delegates_witness :
    (GraphBusNode.mk (H := Nat) (M := Nat) none none).publish
        (fun (_ : Nat) (_ : Nat) => (none : Option Nat)) "T" 0 = ([], none) :=
  (node_publish_noop_or_delegates _ _ "T" 0).1 rfl

/-- Claim C9: frame property of `subscribe`.  For every bus state, topic
`T` (including the empty string), handler `h` and name `n`,
`subscribe(T, h, subscriber_name = n)` appends exactly one pair `(n, h)`
at the end of `T`'s subscription list and leaves every other topic's
subscription list unchanged; it never fails (it is total). -/
theorem subscribe_frame {H : Type} (bus : MessageBus H) (T T' n : String) (h : H) :
    ((bus.subscribe T h n).getSubs T = bus.getSubs T ++ [(n, h)])
    ∧ (T' ≠ T → (bus.subscribe T h n).getSubs T' = bus.getSubs T') :=
  ⟨getSubs_subscribe_same bus T n h, fun hne => getSubs_subscribe_other bus T T' n h hne⟩

/-- Witness for C9: subscribing to the empty-string topic on the empty
bus leaves topic `"x"` untouched. -/
theorem subscribe_frame_witness :
    ((MessageBus.mk ([] : List (String × List (String × Nat)))).subscribe "" 7 "n").getSubs "x"
      = (MessageBus.mk ([] : List (String × List (String × Nat)))).getSubs "x" :=
  (subscribe_frame _ "" "x" "n" 7).2 (by decide)

/-- Claim C4: subscriptions are never deduplicated.  Subscribing the same
`(topic, handler)` pair twice makes the handler appear in the publish
trace exactly two more times than before (so exactly twice per publish
when starting from a bus where it did not appear), provided all handlers
return normally; and running the wiring procedure twice over the same
agent set from a fresh bus exactly doubles every topic's subscription
count. -/
theorem no_dedup_and_double_wiring {H P E : Type} [DecidableEq H] (exec : H → P → Option E)
    (bus : MessageBus H) (T n1 n2 : String) (h : H) (p : P) (agents : List (Agent H))
    (hok : ∀ s ∈ ((bus.subscribe T h n1).subscribe T h n2).getSubs T, exec s.2 p = none) :
    (((((bus.subscribe T h n1).subscribe T h n2).publish exec T p).2.1.filter
          (fun q => decide (q.1 = h))).length
        = ((bus.getSubs T).filter (fun s => decide (s.2 = h))).length + 2)
    ∧ ∀ T2 : String,
        ((wireSubscriptions agents
            (wireSubscriptions agents (MessageBus.mk []))).getSubs T2).length
          = 2 * ((wireSubscriptions agents (MessageBus.mk [] : MessageBus H)).getSubs T2).length := by
  constructor
  · have hsubs : ((bus.subscribe T h n1).subscribe T h n2).getSubs T
        = bus.getSubs T ++ [(n1, h), (n2, h)] := by
      rw [getSubs_subscribe_same, getSubs_subscribe_same, List.append_assoc]
      rfl
    show ((runHandlers exec p
        (((bus.subscribe T h n1).subscribe T h n2).getSubs T)).1.filter
          (fun q => decide (q.1 = h))).length = _
    rw [runHandlers_all_ok exec p _ hok, hsubs]
    simp only [List.map_append, List.filter_append, List.length_append,
      List.countP_map, ← List.countP_eq_length_filter]
    simp
    rfl
  · intro T2
    have hempty : (MessageBus.mk ([] : List (String × List (String × H)))).getSubs T2 = [] := rfl
    have h1 : (wireSubscriptions agents (MessageBus.mk [] : MessageBus H)).getSubs T2
        = wiredSubsFor agents T2 := by
      rw [getSubs_wireSubscriptions, hempty, List.nil_append]
    have h2 : (wireSubscriptions agents
          (wireSubscriptions agents (MessageBus.mk [] : MessageBus H))).getSubs T2
        = wiredSubsFor agents T2 ++ wiredSubsFor agents T2 := by
      rw [getSubs_wireSubscriptions, h1]
    rw [h1, h2, List.length_append]
    omega

/-- Witness for C4: subscribing handler `7` twice to `"T"` on the empty
bus makes it appear twice in the publish trace. -/
theorem no_dedup_and_double_wiring_witness :
    (((((MessageBus.mk ([] : List (String × List (String × Nat)))).subscribe "T" 7 "a").subscribe
          "T" 7 "b").publish (fun (_ : Nat) (_ : Nat) => (none : Option Nat)) "T" 0).2.1.filter
        (fun q => decide (q.1 = 7))).length
      = (((MessageBus.mk ([] : List (String × List (String × Nat)))).getSubs "T").filter
          (fun s => decide (s.2 = 7))).length + 2 :=
  (no_dedup_and_double_wiring (fun _ _ => none) _ "T" "a" "b" 7 0 [] (fun _ _ => rfl)).1

/-- Claim C5: after the wiring engine runs over an ordered agent sequence
starting from a fresh bus, every topic's subscription list is exactly the
marked operations declaring that topic, in wiring order, each registered
with its bound operation as handler under the subscriber name
`"<AgentTypeName>.<operationName>"`; equivalently, a pair `(n, h)` is
registered for topic `T` iff some agent has an operation marked with
topic `T` whose handler is `h` and whose qualified name is `n` —
operations without the marker are never registered. -/
theorem wiring_registers_marked_ops {H : Type} (agents : List (Agent H)) (T : String) :
    ((wireSubscriptions agents (MessageBus.mk [])).getSubs T = wiredSubsFor agents T)
    ∧ ∀ (n : String) (h : H),
        ((n, h) ∈ (wireSubscriptions agents (MessageBus.mk [])).getSubs T
          ↔ ∃ a ∈ agents, ∃ op ∈ a.ops,
              op.subscribeTopic = some T
              ∧ a.typeName ++ "." ++ op.opName = n ∧ op.handler = h) := by
  have hempty : (MessageBus.mk ([] : List (String × List (String × H)))).getSubs T = [] := rfl
  have h1 : (wireSubscriptions agents (MessageBus.mk [] : MessageBus H)).getSubs T
      = wiredSubsFor agents T := by
    rw [getSubs_wireSubscriptions, hempty, List.nil_append]
  refine ⟨h1, fun n h => ?_⟩
  rw [h1]
  simp only [wiredSubsFor, List.mem_flatten, List.mem_map]
  constructor
  · rintro ⟨l, ⟨a, ha, rfl⟩, hmem⟩
    rw [List.mem_filterMap] at hmem
    obtain ⟨op, hop, hif⟩ := hmem
    by_cases hm : op.subscribeTopic = some T
    · rw [if_pos hm] at hif
      exact ⟨a, ha, op, hop, hm, congrArg Prod.fst (Option.some.inj hif),
        congrArg Prod.snd (Option.some.inj hif)⟩
    · rw [if_neg hm] at hif
      exact absurd hif (by simp)
  · rintro ⟨a, ha, op, hop, hm, hn, hh⟩
    refine ⟨_, ⟨a, ha, rfl⟩, ?_⟩
    rw [List.mem_filterMap]
    exact ⟨op, hop, by rw [if_pos hm, hn, hh]⟩

end GraphBus

namespace TaskAgent

/-- Claim C10: when no task with the given `task_id` owned by the given
`user_id` exists, `update_task` returns `None` and `delete_task` returns
`False`; in both cases no event is published to the bus and the database
is unchanged (no task modified or deleted). -/
theorem task_not_found_no_event (db : List Task) (tid uid : String)
    (title : Option String) (done : Option Bool) (hnone : dbFirst db tid uid = none) :
    update_task db tid uid title done = (db, [], none)
    ∧ delete_task db tid uid = (db, [], false) := by
  constructor
  · unfold update_task
    rw [hnone]
  · unfold delete_task
    rw [hnone]

/-- Witness for C10: a one-task database queried with a different task id
is returned unchanged, with no event and a `None` result. -/
theorem task_not_found_no_event_witness :
    update_task [Task.mk "a" "t" false "u"] "b" "u" none none
      = ([Task.mk "a" "t" false "u"], [], none) :=
  (task_not_found_no_event [Task.mk "a" "t" false "u"] "b" "u" none none (by decide)).1

end TaskAgent
